import Mathlib

/-!
Shallow embedding of `src/script.js`, a browser-based expense tracker.

The script keeps a global array `transactions`, persists it to
`localStorage` as a JSON blob, and re-renders summary figures and a list
view after every mutation.  The embedding below translates each function of
the script into a Lean function over an explicit application state.

Modelling conventions (for browser builtins that are not part of the
repository's source):
* JavaScript numbers are modelled by `JSNum`: `NaN`, the two infinities,
  and finite values represented exactly as rationals.  The theorems below
  concern signs, identities, entry counts and list orders, which are
  insensitive to binary64 rounding; rounding itself (in particular the
  non-associativity of double addition) is not modelled, and no theorem
  below asserts a rounding-sensitive property.
* `parseFloat(amountInput.value)` is a browser builtin; its result is
  taken as the `amount : JSNum` argument of `handleFormSubmit`
  (`JSNum.nan` when the text does not parse).
* `String.prototype.trim` is modelled by `jsTrim` (drop whitespace from
  both ends).
* `JSON.parse` of the stored blob can yield any JSON value.  The model
  classifies blobs as: not valid JSON (`Blob.notJSON`), valid JSON that is
  not an array (`Blob.jsonNonArray`), the text `JSON.stringify` produces
  from an array of transaction records (`Blob.jsonArr ts`), or from an
  array with other elements (`Blob.jsonItems its`).  `JSON.stringify`
  writes `null` for non-finite numbers; this is modelled at the parse
  side: loading `Blob.jsonArr ts` yields the laundered image
  (`storedRecordImage`) of each record.  Distinct lists with the same
  laundered image denote the same stored text, so blob equality in the
  model is finer than textual equality; no theorem below distinguishes
  such blobs.
* Array elements are modelled by `Item`: a transaction record, a record
  whose `amount` is `null` (the stringify image of a non-finite amount),
  the value `null` (property access on it throws a `TypeError`), or any
  other JSON value (property access yields `undefined`, which fails both
  sign filters and both comparator operands; numeric strings, whose
  coercions differ, are not modelled separately — no theorem below
  depends on their totals or order).
* `Array.prototype.sort` with the comparator
  `(a, b) => b.timestamp - a.timestamp` is a stable sort placing larger
  timestamps first; a stable sort for a total preorder is unique, so on
  records it is modelled by the stable insertion sort `sortDesc`.  When a
  `timestamp` is `undefined` the comparator returns `NaN`, which the sort
  treats as 0 (no reordering), and for such inconsistent comparators the
  JS result is implementation-defined; `sortItems` picks one stable
  outcome, and no theorem below relies on the order of such arrays.
* The DOM list container is modelled by `DomList`; `element.prepend` is
  consing onto the front of the rendered list.
* `showMessage` is modelled by recording the kind of the message last
  shown (its text and the auto-hide timer are presentation only).
* `Date.now()` is passed in as the argument `now : Int` (epoch
  milliseconds); the script derives both the id and the timestamp of a new
  transaction from it.
-/

namespace ExpenseTracker

/-- JavaScript number: `NaN`, `Infinity`, `-Infinity`, or a finite value
(represented exactly as a rational). -/
inductive JSNum where
  | nan : JSNum
  | inf : JSNum
  | ninf : JSNum
  | num : ℚ → JSNum
deriving DecidableEq, Repr

/-- JavaScript `a < b` (false whenever either operand is `NaN`). -/
def jsLt : JSNum → JSNum → Bool
  | JSNum.nan, _ => false
  | _, JSNum.nan => false
  | JSNum.inf, _ => false
  | _, JSNum.inf => true
  | JSNum.ninf, JSNum.ninf => false
  | JSNum.ninf, _ => true
  | _, JSNum.ninf => false
  | JSNum.num a, JSNum.num b => decide (a < b)

/-- JavaScript `a > b`. -/
def jsGt (a b : JSNum) : Bool := jsLt b a

/-- JavaScript `a <= b` (false whenever either operand is `NaN`). -/
def jsLe : JSNum → JSNum → Bool
  | JSNum.nan, _ => false
  | _, JSNum.nan => false
  | a, b => !(jsLt b a)

/-- JavaScript `a >= b`. -/
def jsGe (a b : JSNum) : Bool := jsLe b a

/-- JavaScript addition on `JSNum`, exact on finite values (binary64
rounding is not modelled; no theorem below depends on it). -/
def jsAdd : JSNum → JSNum → JSNum
  | JSNum.nan, _ => JSNum.nan
  | _, JSNum.nan => JSNum.nan
  | JSNum.inf, JSNum.ninf => JSNum.nan
  | JSNum.ninf, JSNum.inf => JSNum.nan
  | JSNum.inf, _ => JSNum.inf
  | _, JSNum.inf => JSNum.inf
  | JSNum.ninf, _ => JSNum.ninf
  | _, JSNum.ninf => JSNum.ninf
  | JSNum.num a, JSNum.num b => JSNum.num (a + b)

/-- JavaScript `isNaN` applied to a number. -/
def jsIsNaN : JSNum → Bool
  | JSNum.nan => true
  | _ => false

/-- Whether a JavaScript number is finite (neither `NaN` nor infinite).
`JSON.stringify` writes `null` exactly for the non-finite numbers. -/
def jsFinite : JSNum → Bool
  | JSNum.num _ => true
  | _ => false

/-- Model of `String.prototype.trim`: drop whitespace from both ends. -/
def jsTrim (s : String) : String :=
  String.mk (((s.data.dropWhile Char.isWhitespace).reverse.dropWhile
    Char.isWhitespace).reverse)

/-- A transaction record as created by `handleFormSubmit`:
`{id, description, amount, timestamp}` with a numeric amount. -/
structure Transaction where
  id : String
  description : String
  amount : JSNum
  timestamp : Int
deriving DecidableEq, Repr

/-- One element of a parsed array.  Besides transaction records, a parsed
array can hold a record whose `amount` is `null` (the stringify image of a
non-finite amount), the value `null` itself (any property access on it
throws a `TypeError`), or any other JSON value (property access yields
`undefined` and does not throw). -/
inductive Item where
  | record : Transaction → Item
  | nullAmount : String → String → Int → Item
  | nullItem : Item
  | other : Item
deriving DecidableEq, Repr

/-- Value of the global variable `transactions`.  `JSON.parse` can assign
it any JSON value: an array all of whose elements are transaction records
(`arr`), an array with other elements (`arrItems`), or a non-array value,
on which the array methods `.map`, `.push`, `.filter` and `.sort` throw a
`TypeError` (`nonArray`). -/
inductive TransactionsVar where
  | arr : List Transaction → TransactionsVar
  | arrItems : List Item → TransactionsVar
  | nonArray : TransactionsVar
deriving DecidableEq, Repr

/-- Classification of the blob stored under the key
`expenseTrackerTransactions`.  `jsonArr ts` stands for the text
`JSON.stringify` produces from the record array `ts`, and `jsonItems its`
for the text it produces from a mixed array; parsing those texts back
applies the laundering of non-finite amounts to `null` (see
`loadTransactions`). -/
inductive Blob where
  | notJSON : Blob
  | jsonNonArray : Blob
  | jsonArr : List Transaction → Blob
  | jsonItems : List Item → Blob
deriving DecidableEq, Repr

/-- Kind of the message last passed to `showMessage`. -/
inductive MsgKind where
  | error : MsgKind
  | success : MsgKind
deriving DecidableEq, Repr

/-- The three aggregate figures computed by `updateSummary`. -/
structure Summary where
  income : JSNum
  expense : JSNum
  balance : JSNum
deriving DecidableEq, Repr

/-- Contents of the transaction list container in the DOM. -/
inductive DomList where
  | initial : DomList
  | placeholder : DomList
  | items : List Transaction → DomList
  | itemsMixed : List Item → DomList
deriving DecidableEq, Repr

/-- Observable state of the application: the global `transactions`
variable, the `localStorage` entry, the last message shown, and the two
rendered parts of the DOM. -/
structure AppState where
  transactions : TransactionsVar
  storage : Option Blob
  message : Option MsgKind
  summaryDom : Option Summary
  listDom : DomList
deriving DecidableEq, Repr

/-- The parse image of a stored record: `JSON.stringify` writes `null` for
a non-finite `amount`, so parsing the stored text back yields a record
whose `amount` is `null`; finite amounts round-trip exactly. -/
def storedRecordImage (t : Transaction) : Item :=
  if jsFinite t.amount then Item.record t
  else Item.nullAmount t.id t.description t.timestamp

/-- The parse image of a stored array element: records are laundered as in
`storedRecordImage`; `null` and the other JSON values keep their class. -/
def storedItemImage : Item → Item
  | Item.record t => storedRecordImage t
  | i => i

/-- `loadTransactions` (script lines 15-29): read the blob; when absent the
variable is left as it is; when parsing throws, fall back to an empty array
and show an error message; otherwise assign the parsed value, whatever its
shape (the parse image launders non-finite amounts to `null`). -/
def loadTransactions (st : AppState) : AppState :=
  match st.storage with
  | none => st
  | some Blob.notJSON =>
      { st with transactions := TransactionsVar.arr [],
                message := some MsgKind.error }
  | some Blob.jsonNonArray => { st with transactions := TransactionsVar.nonArray }
  | some (Blob.jsonArr ts) =>
      if ts.all (fun t => jsFinite t.amount) then
        { st with transactions := TransactionsVar.arr ts }
      else
        { st with transactions :=
          TransactionsVar.arrItems (ts.map storedRecordImage) }
  | some (Blob.jsonItems its) =>
      { st with transactions :=
        TransactionsVar.arrItems (its.map storedItemImage) }

/-- The blob written by `JSON.stringify(transactions)` (the stored text is
named by the stringified value; see `Blob`). -/
def serialize : TransactionsVar → Blob
  | TransactionsVar.arr ts => Blob.jsonArr ts
  | TransactionsVar.arrItems its => Blob.jsonItems its
  | TransactionsVar.nonArray => Blob.jsonNonArray

/-- `saveTransactions` (script lines 34-37): overwrite the stored blob with
the serialized current value. -/
def saveTransactions (st : AppState) : AppState :=
  { st with storage := some (serialize st.transactions) }

/-- The aggregate computation of `updateSummary` (script lines 57-71) on an
array of transaction records: income is the sum of the positive amounts,
expense the sum of the negative amounts, balance their sum. -/
def summaryOf (ts : List Transaction) : Summary :=
  let amounts := ts.map (fun t => t.amount)
  let totalIncome :=
    (amounts.filter (fun item => jsGt item (JSNum.num 0))).foldl jsAdd (JSNum.num 0)
  let totalExpense :=
    (amounts.filter (fun item => jsLt item (JSNum.num 0))).foldl jsAdd (JSNum.num 0)
  { income := totalIncome, expense := totalExpense,
    balance := jsAdd totalIncome totalExpense }

/-- Value of `element.amount` for an array element that is not `null`:
records give their amount, laundered records give `null` and all other
values give `undefined`; both `null > 0` and `undefined > 0` (and the `<`
variants) are false in JavaScript, so those elements fail both sign
filters.  (`nullItem` is guarded separately: accessing `.amount` on `null`
throws.) -/
inductive JSVal where
  | vnum : JSNum → JSVal
  | vnull : JSVal
  | vundef : JSVal
deriving DecidableEq, Repr

/-- `element.amount` of a non-`null` element (see `JSVal`). -/
def itemAmount : Item → JSVal
  | Item.record t => JSVal.vnum t.amount
  | Item.nullAmount _ _ _ => JSVal.vnull
  | _ => JSVal.vundef

/-- JavaScript `item > 0` on a parsed amount value. -/
def vPos : JSVal → Bool
  | JSVal.vnum n => jsGt n (JSNum.num 0)
  | _ => false

/-- JavaScript `item < 0` on a parsed amount value. -/
def vNeg : JSVal → Bool
  | JSVal.vnum n => jsLt n (JSNum.num 0)
  | _ => false

/-- JavaScript numeric coercion of a parsed amount value (`null` coerces
to 0, `undefined` to `NaN`). -/
def toNum : JSVal → JSNum
  | JSVal.vnum n => n
  | JSVal.vnull => JSNum.num 0
  | JSVal.vundef => JSNum.nan

/-- JavaScript `acc += item` over parsed amount values (numeric addition
after coercion; only numbers pass the sign filters, so the folds below add
numbers). -/
def vAdd (a b : JSVal) : JSVal := JSVal.vnum (jsAdd (toNum a) (toNum b))

/-- Whether an array contains the element `null` (on which the property
accesses in `updateSummary`, the sort comparator and the DOM rendering
throw a `TypeError`). -/
def hasNullItem (its : List Item) : Bool :=
  its.any (fun i => i == Item.nullItem)

/-- The aggregate computation of `updateSummary` on an array with
non-record elements: map each element to its `amount` value, filter by
sign, fold.  The fold starts from the number 0 and only numbers pass the
filters, so the totals are numbers; `toNum` extracts their numeric
value. -/
def summaryOfItems (its : List Item) : Summary :=
  let amounts := its.map itemAmount
  let totalIncome :=
    toNum ((amounts.filter vPos).foldl vAdd (JSVal.vnum (JSNum.num 0)))
  let totalExpense :=
    toNum ((amounts.filter vNeg).foldl vAdd (JSVal.vnum (JSNum.num 0)))
  { income := totalIncome, expense := totalExpense,
    balance := jsAdd totalIncome totalExpense }

/-- `updateSummary` (script lines 57-78) as a fallible computation: on a
non-array value `transactions.map` throws a `TypeError`, and on an array
containing `null` the access `t.amount` inside the map throws. -/
def updateSummary : TransactionsVar → Option Summary
  | TransactionsVar.arr ts => some (summaryOf ts)
  | TransactionsVar.arrItems its =>
      if hasNullItem its then none else some (summaryOfItems its)
  | TransactionsVar.nonArray => none

/-- Stable insertion (descending by timestamp) used to model the stable
`Array.prototype.sort` with comparator `(a, b) => b.timestamp - a.timestamp`
on record arrays: an element moves past exactly those elements whose
timestamp is strictly larger. -/
def insertByTimestampDesc (t : Transaction) : List Transaction → List Transaction
  | [] => [t]
  | u :: us =>
      if t.timestamp < u.timestamp then u :: insertByTimestampDesc t us
      else t :: u :: us

/-- Model of `transactions.sort((a, b) => b.timestamp - a.timestamp)`
(script line 179) on record arrays: the stable sort placing larger
timestamps first. -/
def sortDesc (ts : List Transaction) : List Transaction :=
  ts.foldr insertByTimestampDesc []

/-- `element.timestamp` as a sort key: records (laundered or not) have a
numeric timestamp, other elements give `undefined`. -/
def itemTimestamp : Item → Option Int
  | Item.record t => some t.timestamp
  | Item.nullAmount _ _ ts => some ts
  | _ => none

/-- Stable insertion for the sort on arrays with non-record elements: when
either timestamp is `undefined` the comparator returns `NaN`, treated as 0
(no move; for such inconsistent comparators the JS result is
implementation-defined and no theorem relies on it). -/
def insertItemDesc (x : Item) : List Item → List Item
  | [] => [x]
  | u :: us =>
      match itemTimestamp x, itemTimestamp u with
      | some a, some b =>
          if a < b then u :: insertItemDesc x us else x :: u :: us
      | _, _ => x :: u :: us

/-- The in-place sort of script line 179 on arrays with non-record
elements. -/
def sortItems (its : List Item) : List Item :=
  its.foldr insertItemDesc []

/-- `renderTransactions` (script lines 169-183): clear the container; an
empty array renders a placeholder; otherwise sort the array in place
(timestamp descending) and append each element to the DOM via
`addTransactionToDOM`, which `prepend`s it (script line 146), i.e. conses
it onto the front of the rendered list.  On a non-array value `.sort`
throws a `TypeError`; on an array containing `null`, a property access in
the comparator or in `addTransactionToDOM` throws. -/
def renderTransactions (st : AppState) : Option AppState :=
  match st.transactions with
  | TransactionsVar.nonArray => none
  | TransactionsVar.arr ts =>
      if ts.length = 0 then some { st with listDom := DomList.placeholder }
      else
        let sorted := sortDesc ts
        some { st with transactions := TransactionsVar.arr sorted,
                       listDom := DomList.items
                         (sorted.foldl (fun dom t => t :: dom) []) }
  | TransactionsVar.arrItems its =>
      if hasNullItem its then none
      else if its.length = 0 then
        some { st with listDom := DomList.placeholder }
      else
        let sorted := sortItems its
        some { st with transactions := TransactionsVar.arrItems sorted,
                       listDom := DomList.itemsMixed
                         (sorted.foldl (fun dom i => i :: dom) []) }

/-- `init` (script lines 253-257): load, update the summary, render the
list.  `none` models an uncaught `TypeError`. -/
def init (st : AppState) : Option AppState :=
  let st1 := loadTransactions st
  match updateSummary st1.transactions with
  | none => none
  | some s => renderTransactions { st1 with summaryDom := some s }

/-- The transaction object built at script lines 206-212: id and timestamp
both derive from `Date.now()`. -/
def mkTransaction (description : String) (amount : JSNum) (now : Int) :
    Transaction :=
  { id := toString now, description := description, amount := amount,
    timestamp := now }

/-- Number of entries of the `transactions` variable when it is an array
(`transactions.length`); `none` on a non-array value. -/
def entryCount : TransactionsVar → Option Nat
  | TransactionsVar.arr ts => some ts.length
  | TransactionsVar.arrItems its => some its.length
  | TransactionsVar.nonArray => none

/-- The validation test of script line 200, negated: the submission is
accepted when the trimmed description is non-empty, the parsed amount is
not `NaN`, and the parsed amount is not `=== 0`. -/
def acceptsInput (rawDesc : String) (amount : JSNum) : Bool :=
  !(jsTrim rawDesc == "" || jsIsNaN amount || amount == JSNum.num 0)

/-- Modelled from the spec: the validation rule of section 4.3 as written,
"description must be non-empty after trimming surrounding whitespace;
amount must parse as a finite number and be non-zero". -/
def specValidInput (rawDesc : String) (amount : JSNum) : Bool :=
  (jsTrim rawDesc != "") && jsFinite amount && (amount != JSNum.num 0)

/-- `handleFormSubmit` (script lines 192-226): trim the description, take
the parsed amount; on validation failure show an error message and return;
otherwise push the new transaction (`push` works on any array), save,
re-run `init`, and show a success message.  On a non-array `transactions`
value `.push` throws. -/
def handleFormSubmit (rawDesc : String) (amount : JSNum) (now : Int)
    (st : AppState) : Option AppState :=
  let description := jsTrim rawDesc
  if description = "" ∨ amount = JSNum.nan ∨ amount = JSNum.num 0 then
    some { st with message := some MsgKind.error }
  else
    match st.transactions with
    | TransactionsVar.nonArray => none
    | TransactionsVar.arr ts =>
        let st1 := { st with transactions :=
          TransactionsVar.arr (ts ++ [mkTransaction description amount now]) }
        let st2 := saveTransactions st1
        match init st2 with
        | none => none
        | some st3 => some { st3 with message := some MsgKind.success }
    | TransactionsVar.arrItems its =>
        let newItems := its ++ [Item.record (mkTransaction description amount now)]
        let st1 := { st with transactions := TransactionsVar.arrItems newItems }
        let st2 := saveTransactions st1
        match init st2 with
        | none => none
        | some st3 => some { st3 with message := some MsgKind.success }

/-- `element.id` of a non-`null` element: records (laundered or not) have
their id, other elements give `undefined`. -/
def itemId : Item → Option String
  | Item.record t => some t.id
  | Item.nullAmount i _ _ => some i
  | _ => none

/-- The filter predicate `t => t.id !== id` of script line 155 on a
non-`null` element (`undefined !== id` is true, so non-record elements are
kept). -/
def itemKeeps (i : Item) (id : String) : Bool :=
  match itemId i with
  | some s => decide (s ≠ id)
  | none => true

/-- `deleteTransaction` (script lines 153-164): filter out the matching id,
save, re-run `init`, show a success message.  On a non-array value
`.filter` throws; on an array containing `null`, `t.id` throws inside the
filter. -/
def deleteTransaction (id : String) (st : AppState) : Option AppState :=
  match st.transactions with
  | TransactionsVar.nonArray => none
  | TransactionsVar.arr ts =>
      let st1 := { st with transactions :=
        TransactionsVar.arr (ts.filter (fun t => t.id ≠ id)) }
      let st2 := saveTransactions st1
      match init st2 with
      | none => none
      | some st3 => some { st3 with message := some MsgKind.success }
  | TransactionsVar.arrItems its =>
      if hasNullItem its then none
      else
        let st1 := { st with transactions :=
          TransactionsVar.arrItems (its.filter (fun i => itemKeeps i id)) }
        let st2 := saveTransactions st1
        match init st2 with
        | none => none
        | some st3 => some { st3 with message := some MsgKind.success }

/-! Concrete fixtures used by witnesses and counterexamples. -/

/-- Fresh application state: empty array, no stored blob, no message. -/
def stEmpty : AppState :=
  { transactions := TransactionsVar.arr [], storage := none, message := none,
    summaryDom := none, listDom := DomList.initial }

/-- Sample transaction with timestamp 1. -/
def txA : Transaction :=
  { id := "1", description := "a", amount := JSNum.num 5, timestamp := 1 }

/-- Sample transaction with timestamp 2. -/
def txB : Transaction :=
  { id := "2", description := "b", amount := JSNum.num (-3), timestamp := 2 }

/-- Sample transaction with an infinite amount (the program creates such
entries: submitting amount text "Infinity" passes validation). -/
def txInf : Transaction :=
  { id := "9", description := "inf", amount := JSNum.inf, timestamp := 9 }

/-! Helper lemmas about sorting, sign folds, null elements and the submit
pipeline. -/

theorem insertByTimestampDesc_perm (t : Transaction) (ts : List Transaction) :
    (insertByTimestampDesc t ts).Perm (t :: ts) := by
  induction ts with
  | nil => exact List.Perm.refl _
  | cons u us ih =>
      by_cases h : t.timestamp < u.timestamp
      · simp only [insertByTimestampDesc, if_pos h]
        exact (ih.cons u).trans (List.Perm.swap t u us)
      · simp only [insertByTimestampDesc, if_neg h]
        exact List.Perm.refl _

theorem sortDesc_perm (ts : List Transaction) : (sortDesc ts).Perm ts := by
  induction ts with
  | nil => exact List.Perm.refl _
  | cons t rest ih =>
      exact (insertByTimestampDesc_perm t (sortDesc rest)).trans (ih.cons t)

theorem insertItemDesc_length (x : Item) (l : List Item) :
    (insertItemDesc x l).length = l.length + 1 := by
  induction l with
  | nil => rfl
  | cons u us ih =>
      simp only [insertItemDesc]
      cases itemTimestamp x with
      | none => simp
      | some a =>
          cases itemTimestamp u with
          | none => simp
          | some b =>
              by_cases hab : a < b
              · simp [hab, ih]
              · simp [hab]

theorem sortItems_length (its : List Item) :
    (sortItems its).length = its.length := by
  induction its with
  | nil => rfl
  | cons i rest ih =>
      simp only [sortItems, List.foldr_cons]
      rw [insertItemDesc_length]
      simp only [sortItems] at ih
      rw [ih, List.length_cons]

theorem storedItemImage_nullItem (i : Item) :
    (storedItemImage i == Item.nullItem) = (i == Item.nullItem) := by
  cases i with
  | record t =>
      simp only [storedItemImage, storedRecordImage]
      by_cases h : jsFinite t.amount = true
      · simp [h]
      · simp [h]
  | nullAmount a b c => rfl
  | nullItem => rfl
  | other => rfl

theorem hasNullItem_map_stored (its : List Item) :
    hasNullItem (its.map storedItemImage) = hasNullItem its := by
  induction its with
  | nil => rfl
  | cons i rest ih =>
      simp only [hasNullItem, List.map_cons, List.any_cons] at *
      rw [storedItemImage_nullItem, ih]

theorem hasNullItem_map_records (ts : List Transaction) :
    hasNullItem (ts.map storedRecordImage) = false := by
  induction ts with
  | nil => rfl
  | cons t rest ih =>
      simp only [hasNullItem, List.map_cons, List.any_cons] at *
      rw [ih]
      have : (storedRecordImage t == Item.nullItem) = false := by
        simp only [storedRecordImage]
        by_cases h : jsFinite t.amount = true
        · simp [h]
        · simp [h]
      rw [this]
      rfl

theorem jsGe_zero_jsAdd {a b : JSNum} (ha : jsGe a (JSNum.num 0) = true)
    (hb : jsGt b (JSNum.num 0) = true) :
    jsGe (jsAdd a b) (JSNum.num 0) = true := by
  cases a <;> cases b <;> simp_all [jsGe, jsLe, jsLt, jsGt, jsAdd] <;> linarith

theorem jsLe_zero_jsAdd {a b : JSNum} (ha : jsLe a (JSNum.num 0) = true)
    (hb : jsLt b (JSNum.num 0) = true) :
    jsLe (jsAdd a b) (JSNum.num 0) = true := by
  cases a <;> cases b <;> simp_all [jsLe, jsLt, jsAdd] <;> linarith

theorem foldl_jsAdd_nonneg (l : List JSNum)
    (hl : ∀ x ∈ l, jsGt x (JSNum.num 0) = true) :
    ∀ a, jsGe a (JSNum.num 0) = true →
      jsGe (l.foldl jsAdd a) (JSNum.num 0) = true := by
  induction l with
  | nil => intro a ha; simpa using ha
  | cons x xs ih =>
      intro a ha
      simp only [List.foldl_cons]
      exact ih (fun y hy => hl y (List.mem_cons_of_mem _ hy)) _
        (jsGe_zero_jsAdd ha (hl x (List.mem_cons_self _ _)))

theorem foldl_jsAdd_nonpos (l : List JSNum)
    (hl : ∀ x ∈ l, jsLt x (JSNum.num 0) = true) :
    ∀ a, jsLe a (JSNum.num 0) = true →
      jsLe (l.foldl jsAdd a) (JSNum.num 0) = true := by
  induction l with
  | nil => intro a ha; simpa using ha
  | cons x xs ih =>
      intro a ha
      simp only [List.foldl_cons]
      exact ih (fun y hy => hl y (List.mem_cons_of_mem _ hy)) _
        (jsLe_zero_jsAdd ha (hl x (List.mem_cons_self _ _)))

theorem handleFormSubmit_reject_eq (rawDesc : String) (amount : JSNum)
    (now : Int) (st : AppState)
    (h : jsTrim rawDesc = "" ∨ amount = JSNum.nan ∨ amount = JSNum.num 0) :
    handleFormSubmit rawDesc amount now st =
      some { st with message := some MsgKind.error } := by
  simp only [handleFormSubmit, if_pos h]

theorem handleFormSubmit_accept_outcome (rawDesc : String) (amount : JSNum)
    (now : Int) (st : AppState) (ts : List Transaction)
    (hts : st.transactions = TransactionsVar.arr ts)
    (h1 : jsTrim rawDesc ≠ "") (h2 : amount ≠ JSNum.nan)
    (h3 : amount ≠ JSNum.num 0) :
    ∃ st', handleFormSubmit rawDesc amount now st = some st' ∧
      st'.storage = some (Blob.jsonArr
        (ts ++ [mkTransaction (jsTrim rawDesc) amount now])) ∧
      entryCount st'.transactions = some (ts.length + 1) ∧
      st'.message = some MsgKind.success ∧
      ((ts ++ [mkTransaction (jsTrim rawDesc) amount now]).all
          (fun t => jsFinite t.amount) = true →
        st'.transactions = TransactionsVar.arr
          (sortDesc (ts ++ [mkTransaction (jsTrim rawDesc) amount now]))) := by
  obtain ⟨tv, sto, msg, sd, ld⟩ := st
  simp only at hts
  subst hts
  have hcond : ¬(jsTrim rawDesc = "" ∨ amount = JSNum.nan ∨
      amount = JSNum.num 0) := by
    push_neg
    exact ⟨h1, h2, h3⟩
  set tx := mkTransaction (jsTrim rawDesc) amount now with htx
  by_cases hfin : (ts ++ [tx]).all (fun t => jsFinite t.amount) = true
  · refine ⟨{ transactions := TransactionsVar.arr (sortDesc (ts ++ [tx])),
              storage := some (Blob.jsonArr (ts ++ [tx])),
              message := some MsgKind.success,
              summaryDom := some (summaryOf (ts ++ [tx])),
              listDom := DomList.items
                ((sortDesc (ts ++ [tx])).foldl (fun dom t => t :: dom) []) },
      ?_, rfl, ?_, rfl, fun _ => rfl⟩
    · simp only [handleFormSubmit, if_neg hcond, saveTransactions, serialize,
        init, loadTransactions, updateSummary, renderTransactions, hfin,
        if_true, List.length_append, List.length_cons, List.length_nil]
      simp
    · simp only [entryCount, Option.some.injEq]
      exact ((sortDesc_perm _).length_eq).trans (by simp)
  · refine ⟨{ transactions := TransactionsVar.arrItems
                (sortItems ((ts ++ [tx]).map storedRecordImage)),
              storage := some (Blob.jsonArr (ts ++ [tx])),
              message := some MsgKind.success,
              summaryDom := some
                (summaryOfItems ((ts ++ [tx]).map storedRecordImage)),
              listDom := DomList.itemsMixed
                ((sortItems ((ts ++ [tx]).map storedRecordImage)).foldl
                  (fun dom i => i :: dom) []) },
      ?_, rfl, ?_, rfl, fun hcontr => absurd hcontr hfin⟩
    · simp only [handleFormSubmit, if_neg hcond, saveTransactions, serialize,
        init, loadTransactions, updateSummary, renderTransactions,
        if_neg hfin, hasNullItem_map_records, List.length_map,
        List.length_append, List.length_cons, List.length_nil]
      simp
    · simp only [entryCount, Option.some.injEq, sortItems_length,
        List.length_map]
      simp

/-! Claim theorems. -/

/-- Claim C1 asserts that the rendered list shows the entry with the larger
timestamp first (newest first).  The code sorts the array timestamp
descending and then `prepend`s each element, which reverses the order: on a
ledger with timestamps 1 < 2 the rendered list shows the timestamp-1 entry
first, contradicting the claim (and the script's own comments "Newest
first, descending" and "Insert the new list item at the beginning (newest
first)"). -/
theorem renderTransactions_shows_oldest_first :
    txA.timestamp < txB.timestamp ∧
    (renderTransactions { stEmpty with
        transactions := TransactionsVar.arr [txA, txB] }).map
      (fun s => s.listDom) = some (DomList.items [txA, txB]) ∧
    (renderTransactions { stEmpty with
        transactions := TransactionsVar.arr [txA, txB] }).map
      (fun s => s.listDom) ≠ some (DomList.items [txB, txA]) := by decide

/-- Claim C2: for a submission whose trimmed description is non-empty and
whose amount parses to a finite non-zero number, `handleFormSubmit` leaves
the ledger with exactly one more entry, and that entry carries the trimmed
description and the parsed amount.  The hypothesis that the pre-existing
amounts are finite embeds the spec's data model (amounts are numbers; per
the C7 correction, JSON persistence stores a non-finite amount as `null`,
so a ledger holding one would not survive its own refresh unchanged). -/
theorem handleFormSubmit_valid_adds_one_entry (rawDesc : String) (q : ℚ)
    (now : Int) (st : AppState) (ts : List Transaction)
    (hts : st.transactions = TransactionsVar.arr ts)
    (hfin : ts.all (fun t => jsFinite t.amount) = true)
    (hdesc : jsTrim rawDesc ≠ "") (hq : q ≠ 0) :
    ∃ st' ts₁,
      handleFormSubmit rawDesc (JSNum.num q) now st = some st' ∧
      st'.transactions = TransactionsVar.arr ts₁ ∧
      ts₁.length = ts.length + 1 ∧
      mkTransaction (jsTrim rawDesc) (JSNum.num q) now ∈ ts₁ ∧
      (mkTransaction (jsTrim rawDesc) (JSNum.num q) now).description =
        jsTrim rawDesc ∧
      (mkTransaction (jsTrim rawDesc) (JSNum.num q) now).amount =
        JSNum.num q := by
  have h2 : JSNum.num q ≠ JSNum.nan := by simp
  have h3 : JSNum.num q ≠ JSNum.num 0 := by simpa using hq
  obtain ⟨st', heq, hsto, hcnt, hmsg, himp⟩ :=
    handleFormSubmit_accept_outcome rawDesc (JSNum.num q) now st ts hts
      hdesc h2 h3
  have hfin2 : (ts ++ [mkTransaction (jsTrim rawDesc) (JSNum.num q) now]).all
      (fun t => jsFinite t.amount) = true := by
    rw [List.all_append, hfin]
    rfl
  refine ⟨st', sortDesc (ts ++ [mkTransaction (jsTrim rawDesc) (JSNum.num q) now]),
    heq, himp hfin2, ?_, ?_, rfl, rfl⟩
  · exact ((sortDesc_perm _).length_eq).trans (by simp)
  · exact (sortDesc_perm _).mem_iff.mpr (by simp)

/-- Witness for C2 at the spec's sample input: submitting description
"Salary" with amount 50000 from the empty ledger. -/
theorem handleFormSubmit_valid_adds_one_entry_spot :
    ∃ st' ts₁,
      handleFormSubmit "Salary" (JSNum.num 50000) 7 stEmpty = some st' ∧
      st'.transactions = TransactionsVar.arr ts₁ ∧
      ts₁.length = ([] : List Transaction).length + 1 ∧
      mkTransaction (jsTrim "Salary") (JSNum.num 50000) 7 ∈ ts₁ ∧
      (mkTransaction (jsTrim "Salary") (JSNum.num 50000) 7).description =
        jsTrim "Salary" ∧
      (mkTransaction (jsTrim "Salary") (JSNum.num 50000) 7).amount =
        JSNum.num 50000 :=
  handleFormSubmit_valid_adds_one_entry "Salary" 50000 7 stEmpty []
    rfl (by decide) (by decide) (by decide)

/-- Claim C3: for every ledger the summary satisfies
`balance = income + expense`, `income >= 0` and `expense <= 0`, income and
expense being the sums of the positive resp. negative amounts. -/
theorem updateSummary_aggregate_invariant (ts : List Transaction) :
    updateSummary (TransactionsVar.arr ts) = some (summaryOf ts) ∧
    jsGe (summaryOf ts).income (JSNum.num 0) = true ∧
    jsLe (summaryOf ts).expense (JSNum.num 0) = true ∧
    (summaryOf ts).balance =
      jsAdd (summaryOf ts).income (summaryOf ts).expense := by
  refine ⟨rfl, ?_, ?_, rfl⟩
  · exact foldl_jsAdd_nonneg _ (fun x hx => (List.mem_filter.mp hx).2) _
      (by decide)
  · exact foldl_jsAdd_nonpos _ (fun x hx => (List.mem_filter.mp hx).2) _
      (by decide)

/-- Counterexample to claim C4: a stored blob that is valid JSON but not an
array (e.g. "42" or "{}") is assigned to the `transactions` variable
as-is: loading does not reset it to an empty array, no error message is
shown, and the subsequent summary step throws an uncaught `TypeError`
(`transactions.map is not a function`), so the refresh is fatal. -/
theorem loadTransactions_wrong_structure_fatal :
    (loadTransactions { stEmpty with
        storage := some Blob.jsonNonArray }).transactions ≠
      TransactionsVar.arr [] ∧
    (loadTransactions { stEmpty with
        storage := some Blob.jsonNonArray }).message = none ∧
    init { stEmpty with storage := some Blob.jsonNonArray } = none := by
  decide

/-- Amended claim C4, the error taxonomy of loading: (i) a blob that is not
parseable as JSON at all makes `loadTransactions` fall back to an empty
ledger and show a user-visible error, and the refresh then completes;
(ii) a blob that is a JSON array is assigned as-is even when its elements
are not transaction records — no reset, no error signal — and the refresh
completes as long as the array does not contain `null`; (iii) an array
containing `null` makes the refresh throw (property access on `null`).
The remaining case, valid JSON that is not an array, is the fatal
counterexample above. -/
theorem loadTransactions_error_taxonomy (st₁ st₂ st₃ : AppState)
    (its₂ its₃ : List Item)
    (h₁ : st₁.storage = some Blob.notJSON)
    (h₂ : st₂.storage = some (Blob.jsonItems its₂))
    (hnn : hasNullItem its₂ = false)
    (h₃ : st₃.storage = some (Blob.jsonItems its₃))
    (hn : hasNullItem its₃ = true) :
    ((loadTransactions st₁).transactions = TransactionsVar.arr [] ∧
      (loadTransactions st₁).message = some MsgKind.error ∧
      ∃ s, init st₁ = some s ∧ s.transactions = TransactionsVar.arr [] ∧
        s.listDom = DomList.placeholder) ∧
    ((loadTransactions st₂).transactions =
        TransactionsVar.arrItems (its₂.map storedItemImage) ∧
      (loadTransactions st₂).message = st₂.message ∧
      ∃ s, init st₂ = some s) ∧
    init st₃ = none := by
  obtain ⟨tv₁, sto₁, msg₁, sd₁, ld₁⟩ := st₁
  obtain ⟨tv₂, sto₂, msg₂, sd₂, ld₂⟩ := st₂
  obtain ⟨tv₃, sto₃, msg₃, sd₃, ld₃⟩ := st₃
  simp only at h₁ h₂ h₃
  subst h₁
  subst h₂
  subst h₃
  have hmapped₂ : hasNullItem (its₂.map storedItemImage) = false := by
    rw [hasNullItem_map_stored]
    exact hnn
  have hmapped₃ : hasNullItem (its₃.map storedItemImage) = true := by
    rw [hasNullItem_map_stored]
    exact hn
  refine ⟨⟨rfl, rfl, _, rfl, rfl, rfl⟩, ⟨rfl, rfl, ?_⟩, ?_⟩
  · simp only [init, loadTransactions, updateSummary, renderTransactions,
      hmapped₂, Bool.false_eq_true, if_false]
    by_cases hlen : (its₂.map storedItemImage).length = 0
    · rw [if_pos hlen]
      exact ⟨_, rfl⟩
    · rw [if_neg hlen]
      exact ⟨_, rfl⟩
  · simp only [init, loadTransactions, updateSummary, hmapped₃, if_true]

/-- Witness for the amended C4: a corrupt (non-JSON) blob, an array of
plain numbers (modelled by non-record elements), and an array containing
`null`, each over a fresh state. -/
theorem loadTransactions_error_taxonomy_spot :
    ((loadTransactions { stEmpty with
        storage := some Blob.notJSON }).transactions =
        TransactionsVar.arr [] ∧
      (loadTransactions { stEmpty with
        storage := some Blob.notJSON }).message = some MsgKind.error ∧
      ∃ s, init { stEmpty with storage := some Blob.notJSON } = some s ∧
        s.transactions = TransactionsVar.arr [] ∧
        s.listDom = DomList.placeholder) ∧
    ((loadTransactions { stEmpty with
        storage := some (Blob.jsonItems [Item.other]) }).transactions =
        TransactionsVar.arrItems ([Item.other].map storedItemImage) ∧
      (loadTransactions { stEmpty with
        storage := some (Blob.jsonItems [Item.other]) }).message =
        ({ stEmpty with
            storage := some (Blob.jsonItems [Item.other]) } : AppState).message ∧
      ∃ s, init { stEmpty with
        storage := some (Blob.jsonItems [Item.other]) } = some s) ∧
    init { stEmpty with
      storage := some (Blob.jsonItems [Item.nullItem]) } = none :=
  loadTransactions_error_taxonomy
    { stEmpty with storage := some Blob.notJSON }
    { stEmpty with storage := some (Blob.jsonItems [Item.other]) }
    { stEmpty with storage := some (Blob.jsonItems [Item.nullItem]) }
    [Item.other] [Item.nullItem] rfl rfl (by decide) rfl (by decide)

/-- Counterexample to claim C5: the validation of script line 200 does not
check finiteness, so an amount parsing to `Infinity` (e.g. raw text
"Infinity" or "1e999") is accepted and a transaction is created — the
ledger grows from zero to one entry — although the claimed acceptance
condition (finite non-zero parse) is false.  (The refresh that follows the
submit persists and reloads the entry, laundering its amount to `null`;
the entry itself remains.) -/
theorem handleFormSubmit_accepts_infinite_amount :
    (handleFormSubmit "x" JSNum.inf 5 stEmpty).map
      (fun s => s.transactions) =
      some (TransactionsVar.arrItems [Item.nullAmount "5" "x" 5]) ∧
    (handleFormSubmit "x" JSNum.inf 5 stEmpty).map
      (fun s => entryCount s.transactions) = some (some 1) ∧
    specValidInput "x" JSNum.inf = false := by decide

/-- Amended claim C5: `handleFormSubmit` creates a transaction (the entry
count of the ledger grows by one) if and only if the description is
non-empty after trimming AND the parsed amount is not `NaN` AND the parsed
amount is non-zero (finiteness is not required: infinite amounts are
accepted); in every other case it shows an error message and leaves the
state otherwise unchanged. -/
theorem handleFormSubmit_accepts_iff (rawDesc : String) (amount : JSNum)
    (now : Int) (st : AppState) (ts : List Transaction)
    (hts : st.transactions = TransactionsVar.arr ts) :
    ((∃ st', handleFormSubmit rawDesc amount now st = some st' ∧
        entryCount st'.transactions = some (ts.length + 1)) ↔
      (jsTrim rawDesc ≠ "" ∧ amount ≠ JSNum.nan ∧
        amount ≠ JSNum.num 0)) ∧
    ((jsTrim rawDesc = "" ∨ amount = JSNum.nan ∨ amount = JSNum.num 0) →
      handleFormSubmit rawDesc amount now st =
        some { st with message := some MsgKind.error }) := by
  constructor
  · constructor
    · rintro ⟨st', heq, hcnt⟩
      by_contra hc
      have hrej : jsTrim rawDesc = "" ∨ amount = JSNum.nan ∨
          amount = JSNum.num 0 := by
        by_contra h2
        push_neg at h2
        exact hc ⟨h2.1, h2.2.1, h2.2.2⟩
      rw [handleFormSubmit_reject_eq _ _ _ _ hrej, Option.some.injEq] at heq
      rw [← heq] at hcnt
      simp only [hts, entryCount, Option.some.injEq] at hcnt
      omega
    · rintro ⟨h1, h2, h3⟩
      obtain ⟨st', heq, hsto, hcnt, hmsg, himp⟩ :=
        handleFormSubmit_accept_outcome rawDesc amount now st ts hts h1 h2 h3
      exact ⟨st', heq, hcnt⟩
  · intro h
    exact handleFormSubmit_reject_eq _ _ _ _ h

/-- Witness for the amended C5 at a concrete valid input over the empty
state. -/
theorem handleFormSubmit_accepts_iff_spot :
    ((∃ st', handleFormSubmit "x" (JSNum.num 2) 1 stEmpty = some st' ∧
        entryCount st'.transactions =
          some (([] : List Transaction).length + 1)) ↔
      (jsTrim "x" ≠ "" ∧ (JSNum.num 2) ≠ JSNum.nan ∧
        (JSNum.num 2) ≠ JSNum.num 0)) ∧
    ((jsTrim "x" = "" ∨ (JSNum.num 2) = JSNum.nan ∨
        (JSNum.num 2) = JSNum.num 0) →
      handleFormSubmit "x" (JSNum.num 2) 1 stEmpty =
        some { stEmpty with message := some MsgKind.error }) :=
  handleFormSubmit_accepts_iff "x" (JSNum.num 2) 1 stEmpty [] rfl

/-- Claim C6: on any invalid submission (empty trimmed description, amount
parsing to `NaN`, or amount zero) the ledger and the stored blob are
unchanged and an error message is shown. -/
theorem handleFormSubmit_invalid_unchanged (rawDesc : String)
    (amount : JSNum) (now : Int) (st : AppState)
    (h : jsTrim rawDesc = "" ∨ amount = JSNum.nan ∨
      amount = JSNum.num 0) :
    ∃ st', handleFormSubmit rawDesc amount now st = some st' ∧
      st'.transactions = st.transactions ∧
      st'.storage = st.storage ∧
      st'.message = some MsgKind.error :=
  ⟨_, handleFormSubmit_reject_eq _ _ _ _ h, rfl, rfl, rfl⟩

/-- Witness for C6 at the spec's sample invalid input: whitespace-only
description with amount 5. -/
theorem handleFormSubmit_invalid_unchanged_spot :
    ∃ st', handleFormSubmit "  " (JSNum.num 5) 9
        { stEmpty with transactions := TransactionsVar.arr [txA] } =
        some st' ∧
      st'.transactions =
        ({ stEmpty with
            transactions := TransactionsVar.arr [txA] } : AppState).transactions ∧
      st'.storage =
        ({ stEmpty with
            transactions := TransactionsVar.arr [txA] } : AppState).storage ∧
      st'.message = some MsgKind.error :=
  handleFormSubmit_invalid_unchanged "  " (JSNum.num 5) 9
    { stEmpty with transactions := TransactionsVar.arr [txA] } (by decide)

/-- Counterexample to claim C7: the round trip is not the identity on
every ledger.  `JSON.stringify` writes `null` for a non-finite amount, so
saving and re-loading a ledger holding an `Infinity`-amount entry (which
the program itself creates, per the C5 correction) yields a record whose
amount is `null`, not the original entry. -/
theorem load_after_save_not_roundtrip :
    (loadTransactions (saveTransactions { stEmpty with
        transactions := TransactionsVar.arr [txInf] })).transactions =
      TransactionsVar.arrItems [Item.nullAmount "9" "inf" 9] ∧
    (loadTransactions (saveTransactions { stEmpty with
        transactions := TransactionsVar.arr [txInf] })).transactions ≠
      TransactionsVar.arr [txInf] := by decide

/-- Amended claim C7: for every ledger all of whose amounts are finite,
loading immediately after saving reproduces the ledger exactly (same ids,
descriptions, amounts, timestamps, in the same order); a non-finite amount
is stored as `null` and does not round-trip. -/
theorem load_after_save_roundtrip (st : AppState) (ts : List Transaction)
    (h : st.transactions = TransactionsVar.arr ts)
    (hfin : ts.all (fun t => jsFinite t.amount) = true) :
    (loadTransactions (saveTransactions st)).transactions =
      TransactionsVar.arr ts := by
  obtain ⟨tv, sto, msg, sd, ld⟩ := st
  simp only at h
  subst h
  simp only [saveTransactions, serialize, loadTransactions, hfin, if_true]

/-- Witness for the amended C7 on a two-entry ledger with finite
amounts. -/
theorem load_after_save_roundtrip_spot :
    (loadTransactions (saveTransactions { stEmpty with
        transactions := TransactionsVar.arr [txA, txB] })).transactions =
      TransactionsVar.arr [txA, txB] :=
  load_after_save_roundtrip
    { stEmpty with transactions := TransactionsVar.arr [txA, txB] }
    [txA, txB] rfl (by decide)

/-- Claim C8: deleting an id that occurs nowhere in the ledger leaves the
ledger's entries unchanged (the filter matches nothing, so the very list
that was in memory is persisted back), and the operation completes with a
success message, not an error.  The subsequent full refresh re-sorts the
array in place, so the in-memory list afterwards is the timestamp-sorted
permutation of the original; when the array was already in display order
(as it is after any render) it is unchanged verbatim.  The finiteness
hypothesis embeds the spec's data model (see C2 and the C7 correction). -/
theorem deleteTransaction_absent_id (id : String) (st : AppState)
    (ts : List Transaction)
    (hts : st.transactions = TransactionsVar.arr ts)
    (hfin : ts.all (fun t => jsFinite t.amount) = true)
    (habs : ∀ t ∈ ts, t.id ≠ id) :
    ∃ st', deleteTransaction id st = some st' ∧
      st'.transactions = TransactionsVar.arr (sortDesc ts) ∧
      (sortDesc ts).Perm ts ∧
      st'.storage = some (Blob.jsonArr ts) ∧
      st'.message = some MsgKind.success ∧
      (sortDesc ts = ts → st'.transactions = TransactionsVar.arr ts) := by
  obtain ⟨tv, sto, msg, sd, ld⟩ := st
  simp only at hts
  subst hts
  have hfilter : List.filter (fun t => decide (t.id ≠ id)) ts = ts :=
    List.filter_eq_self.mpr (fun a ha => decide_eq_true (habs a ha))
  cases ts with
  | nil =>
      exact ⟨_, rfl, rfl, List.Perm.refl _, rfl, rfl, fun _ => rfl⟩
  | cons t rest =>
      refine ⟨{ transactions := TransactionsVar.arr (sortDesc (t :: rest)),
                storage := some (Blob.jsonArr (t :: rest)),
                message := some MsgKind.success,
                summaryDom := some (summaryOf (t :: rest)),
                listDom := DomList.items
                  ((sortDesc (t :: rest)).foldl (fun dom u => u :: dom) []) },
        ?_, rfl, sortDesc_perm _, rfl, rfl, fun hsorted => by rw [hsorted]⟩
      simp only [deleteTransaction, hfilter, saveTransactions, serialize,
        init, loadTransactions, updateSummary, renderTransactions, hfin,
        if_true, List.length_cons]
      simp

/-- Witness for C8: deleting the absent id "z" from the two-entry ledger
`[txB, txA]`, which is already in display (timestamp-descending) order. -/
theorem deleteTransaction_absent_id_spot :
    ∃ st', deleteTransaction "z"
        { stEmpty with transactions := TransactionsVar.arr [txB, txA] } =
        some st' ∧
      st'.transactions = TransactionsVar.arr (sortDesc [txB, txA]) ∧
      (sortDesc [txB, txA]).Perm [txB, txA] ∧
      st'.storage = some (Blob.jsonArr [txB, txA]) ∧
      st'.message = some MsgKind.success ∧
      (sortDesc [txB, txA] = [txB, txA] →
        st'.transactions = TransactionsVar.arr [txB, txA]) :=
  deleteTransaction_absent_id "z"
    { stEmpty with transactions := TransactionsVar.arr [txB, txA] }
    [txB, txA] rfl (by decide) (by decide)

/-- Counterexample to claim C9: the in-memory order at the moment of
persistence is not insertion order.  Rendering sorts the array in place
(timestamp descending), so after submitting three transactions a, b, c (in
that order, with increasing timestamps) from a fresh start, the third
submission persists the blob `[b, a, c]`, not the insertion order
`[a, b, c]`. -/
theorem persisted_order_not_insertion_order :
    ((handleFormSubmit "a" (JSNum.num 1) 1 stEmpty).bind
      (fun s1 => (handleFormSubmit "b" (JSNum.num 1) 2 s1).bind
        (fun s2 => handleFormSubmit "c" (JSNum.num 1) 3 s2))).map
      (fun s => s.storage) =
      some (some (Blob.jsonArr
        [mkTransaction "b" (JSNum.num 1) 2,
         mkTransaction "a" (JSNum.num 1) 1,
         mkTransaction "c" (JSNum.num 1) 3])) ∧
    [mkTransaction "b" (JSNum.num 1) 2,
     mkTransaction "a" (JSNum.num 1) 1,
     mkTransaction "c" (JSNum.num 1) 3] ≠
    [mkTransaction "a" (JSNum.num 1) 1,
     mkTransaction "b" (JSNum.num 1) 2,
     mkTransaction "c" (JSNum.num 1) 3] := by decide

/-- Amended claim C9: `handleFormSubmit` appends the new transaction to the
end of the in-memory collection, and the order persisted is the pre-submit
in-memory order (which rendering keeps timestamp-descending, not insertion
order) with the new entry appended at the end. -/
theorem handleFormSubmit_persists_append (rawDesc : String)
    (amount : JSNum) (now : Int) (st : AppState) (ts : List Transaction)
    (hts : st.transactions = TransactionsVar.arr ts)
    (h1 : jsTrim rawDesc ≠ "") (h2 : amount ≠ JSNum.nan)
    (h3 : amount ≠ JSNum.num 0) :
    ∃ st', handleFormSubmit rawDesc amount now st = some st' ∧
      st'.storage = some (Blob.jsonArr
        (ts ++ [mkTransaction (jsTrim rawDesc) amount now])) := by
  obtain ⟨st', heq, hsto, hcnt, hmsg, himp⟩ :=
    handleFormSubmit_accept_outcome rawDesc amount now st ts hts h1 h2 h3
  exact ⟨st', heq, hsto⟩

/-- Witness for the amended C9 over a one-entry ledger. -/
theorem handleFormSubmit_persists_append_spot :
    ∃ st', handleFormSubmit "rent" (JSNum.num (-8)) 4
        { stEmpty with transactions := TransactionsVar.arr [txA] } =
        some st' ∧
      st'.storage = some (Blob.jsonArr
        ([txA] ++ [mkTransaction (jsTrim "rent") (JSNum.num (-8)) 4])) :=
  handleFormSubmit_persists_append "rent" (JSNum.num (-8)) 4
    { stEmpty with transactions := TransactionsVar.arr [txA] } [txA]
    rfl (by decide) (by decide) (by decide)

end ExpenseTracker
